import Mathlib

/-!
Verification of the Approval Reconciliation Engine of the `snubb` repository
(a multichain ERC20 approval scanner).

The definitions below are a shallow embedding of the JavaScript source:

* `isEffectivelyUnlimited`, `isUnlimitedAmount` embed the unlimited-amount
  classifier (`isEffectivelyUnlimited` and the three-way check in `main`);
* `processLog` embeds the per-log body of `scanChain`'s streaming loop
  (the Reconciliation Fold), `processBatch`/`scanChainFold` the batch loop;
* `buildChainRecords`/`buildReport` embed the Report Builder loop in `main`;
* `compareApprovalsSingle` embeds the sort comparator of `index.js`,
  `compareApprovalsMulti` the multi-chain comparator variant;
* `sortApprovals` models `Array.prototype.sort` (stable) via `List.mergeSort`.

Amounts are `Nat` (JavaScript `BigInt` arithmetic on uint256 values is exact,
and `BigInt` division truncates, which agrees with `Nat` division on
nonnegative operands).  Addresses, hashes and topics are `String`s;
`String.toLowerCase` models `.toLowerCase()` (all relevant data is ASCII hex).
-/

/-- Model of `String.prototype.toLowerCase` (character-wise ASCII lowering;
all addresses, hashes and topics in this program are ASCII hex strings).
Defined structurally on the character list so that it reduces. -/
def String.toLowerCase (s : String) : String :=
  ⟨s.data.map Char.toLower⟩

namespace Snubb

/-- Topic hash of `Transfer(address,address,uint256)` (keccak256 of the
canonical signature, as computed at the top of the source). -/
def TRANSFER_TOPIC : String :=
  "0xddf252ad1be2c89b69c2b068fc378daa952ba7f163c4a11628f55a4df523b3ef"

/-- Topic hash of `Approval(address,address,uint256)`. -/
def APPROVAL_TOPIC : String :=
  "0x8c5be1e5ebec7d5bd14f71427d1e84f3dd0314c0f7b2291e5b200ac8c7c3b925"

/-- Maximum uint256 value, written as in `main`: `BigInt(2) ** BigInt(256) - BigInt(1)`. -/
def MAX_UINT256 : Nat := 2 ^ 256 - 1

/-- Maximum uint256 value, written as in the source's hex literal
`0xff...ff` (64 `f` digits). -/
def MAX_UINT256_HEX : Nat :=
  0xffffffffffffffffffffffffffffffffffffffffffffffffffffffffffffffff

/-- Embeds `isEffectivelyUnlimited`: `amount > MAX_UINT256 - MAX_UINT256 / 1000n`
(within 0.1% of the maximum).  `BigInt` division truncates, as does `Nat.div`. -/
def isEffectivelyUnlimited (amount : Nat) : Bool :=
  MAX_UINT256_HEX - MAX_UINT256_HEX / 1000 < amount

/-- Embeds the three-way unlimited check of the Report Builder in `main`:
`approvedAmount === 2n**256n - 1n || approvedAmount === 0xff...ff || isEffectivelyUnlimited(approvedAmount)`. -/
def isUnlimitedAmount (amount : Nat) : Bool :=
  amount == MAX_UINT256 || amount == MAX_UINT256_HEX || isEffectivelyUnlimited amount

/-- Association-list update with JavaScript object semantics: an existing key
is overwritten in place (preserving its position), a fresh key is appended at
the end (JS objects iterate string keys in insertion order). -/
def upsert {α : Type} : List (String × α) → String → α → List (String × α)
  | [], k, v => [(k, v)]
  | (k', v') :: t, k, v =>
    if k' = k then (k', v) :: t else (k', v') :: upsert t k v

/-- Value stored in `approvals[tokenAddress][spender]` by `scanChain`. -/
structure ApprovalEntry where
  amount : Nat
  blockNumber : Nat
  txHash : String
deriving DecidableEq

/-- Per-token map `spender -> ApprovalEntry`. -/
abbrev SpenderMap := List (String × ApprovalEntry)

/-- The `approvals` object of `scanChain`: `tokenAddress -> spender -> entry`. -/
abbrev ApprovalState := List (String × SpenderMap)

/-- Per-token map `spender -> accumulated transferred amount`. -/
abbrev UsageMap := List (String × Nat)

/-- The `transfersUsingApprovals` object of `scanChain`. -/
abbrev UsageState := List (String × UsageMap)

/-- The chain-local fold state owned by one `scanChain` invocation. -/
structure ScanState where
  approvals : ApprovalState
  transfersUsingApprovals : UsageState
deriving DecidableEq

/-- The empty fold state (`scanChain`'s two initial `{}` objects). -/
def ScanState.empty : ScanState := ⟨[], []⟩

/-- One entry of a batch's paired transaction list.  `sender` is the raw `from`
field, `txTo` the raw `to` field (either may be absent). -/
structure Transaction where
  hash : String
  sender : Option String
  txTo : Option String
deriving DecidableEq

/-- One decoded log together with the raw fields `scanChain` reads from it.
`addr1`/`addr2` are `log.indexed[0]`/`log.indexed[1]` (owner/spender for
Approval, from/to for Transfer), `amount` is `log.body[0]` (0 when absent),
`address` is the emitting contract. -/
structure LogEntry where
  topic0 : String
  addr1 : String
  addr2 : String
  amount : Nat
  blockNumber : Nat
  transactionHash : String
  address : String
deriving DecidableEq

/-- Embeds `res.data.transactions?.find((tx) => tx.hash === txHash)`. -/
def findTransaction (txs : List Transaction) (txHash : String) : Option Transaction :=
  txs.find? (fun tx => tx.hash == txHash)

/-- Embeds `transaction?.from?.toLowerCase() || null` (an empty string is
falsy in JavaScript, hence also mapped to `none`). -/
def txSenderOf (txs : List Transaction) (txHash : String) : Option String :=
  match findTransaction txs txHash with
  | some tx =>
    match tx.sender with
    | some s => if s.toLowerCase = "" then none else some s.toLowerCase
    | none => none
  | none => none

/-- Embeds `transaction?.to` truthiness (`to` present and nonempty). -/
def txHasTo (txs : List Transaction) (txHash : String) : Bool :=
  match findTransaction txs txHash with
  | some tx =>
    match tx.txTo with
    | some t => !(t == "")
    | none => false
  | none => false

/-- Embeds `if (!transfersUsingApprovals[tokenAddress]) transfersUsingApprovals[tokenAddress] = {}`. -/
def ensureToken (usage : UsageState) (token : String) : UsageState :=
  if (usage.lookup token).isSome then usage else usage ++ [(token, [])]

/-- Embeds the accumulation
`transfersUsingApprovals[token][spender] = (existing or 0n) + amount`. -/
def bumpUsage (usage : UsageState) (token spender : String) (amount : Nat) : UsageState :=
  let inner := (usage.lookup token).getD []
  let cur := (inner.lookup spender).getD 0
  upsert usage token (upsert inner spender (cur + amount))

/-- Embeds the per-log body of `scanChain`'s streaming loop (the
Reconciliation Fold, src/index.js lines 1453-1529).  The decision structure
mirrors the source: an Approval where `owner === TARGET_ADDRESS.toLowerCase()`
unconditionally overwrites `approvals[token][spender]`; a Transfer where
`from === TARGET_ADDRESS.toLowerCase()` first ensures the token key exists in
`transfersUsingApprovals`, then attributes via `isSpenderInitiated`
(`txSender && txSender !== from.toLowerCase()`) or `isOwnerInitiatedToSpender`
(`txSender === from.toLowerCase() && transaction?.to`, with
`approvals[tokenAddress]?.[txTo]` recorded). -/
def processLog (target : String) (txs : List Transaction) (st : ScanState)
    (log : LogEntry) : ScanState :=
  let tokenAddress := log.address.toLowerCase
  let txSender := txSenderOf txs log.transactionHash
  if log.topic0 = APPROVAL_TOPIC then
    let owner := log.addr1.toLowerCase
    let spender := log.addr2.toLowerCase
    if owner = target.toLowerCase then
      let inner := (st.approvals.lookup tokenAddress).getD []
      let inner' := upsert inner spender ⟨log.amount, log.blockNumber, log.transactionHash⟩
      { st with approvals := upsert st.approvals tokenAddress inner' }
    else st
  else if log.topic0 = TRANSFER_TOPIC then
    let fromAddr := log.addr1.toLowerCase
    if fromAddr = target.toLowerCase then
      let usage0 := ensureToken st.transfersUsingApprovals tokenAddress
      match txSender with
      | some s =>
        if s ≠ fromAddr.toLowerCase then
          { st with transfersUsingApprovals := bumpUsage usage0 tokenAddress s log.amount }
        else if txHasTo txs log.transactionHash then
          match (findTransaction txs log.transactionHash).bind (·.txTo) with
          | some t =>
            let txTo := t.toLowerCase
            if (((st.approvals.lookup tokenAddress).getD []).lookup txTo).isSome then
              { st with transfersUsingApprovals := bumpUsage usage0 tokenAddress txTo log.amount }
            else { st with transfersUsingApprovals := usage0 }
          | none => { st with transfersUsingApprovals := usage0 }
        else { st with transfersUsingApprovals := usage0 }
      | none => { st with transfersUsingApprovals := usage0 }
    else st
  else st

/-- One batch as delivered by the stream: decoded logs (`none` marks a log the
loop skips: `log === null` or missing `topics[0]`) paired with the batch's
transaction list. -/
structure Batch where
  logs : List (Option LogEntry)
  transactions : List Transaction

/-- Embeds the per-batch log loop of `scanChain` (skipped logs are no-ops). -/
def processBatch (target : String) (st : ScanState) (b : Batch) : ScanState :=
  b.logs.foldl
    (fun s l =>
      match l with
      | none => s
      | some log => processLog target b.transactions s log)
    st

/-- Embeds the whole streaming loop of `scanChain`: fold every batch, in
order, over the empty state. -/
def scanChainFold (target : String) (batches : List Batch) : ScanState :=
  batches.foldl (processBatch target) ScanState.empty

/-- Lookup of `approvals[token]?.[spender]` in a fold state. -/
def lookupApproval (st : ScanState) (token spender : String) : Option ApprovalEntry :=
  (st.approvals.lookup token).bind (fun m => m.lookup spender)

/-- Lookup of `transfersUsingApprovals[token]?.[spender]` in a fold state. -/
def lookupUsage (st : ScanState) (token spender : String) : Option Nat :=
  (st.transfersUsingApprovals.lookup token).bind (fun m => m.lookup spender)

/-- One record of the final report list (`approvalsList` entries). -/
structure ReconciledApproval where
  chainId : Nat
  tokenAddress : String
  spender : String
  approvedAmount : Nat
  transferredAmount : Nat
  remainingApproval : Nat
  isUnlimited : Bool
  blockNumber : Nat
  txHash : String
deriving DecidableEq

/-- Embeds the remaining-approval computation of the Report Builder in `main`
(src/index.js lines 1214-1234): for the unlimited case `remainingApproval`
stays `approvedAmount`; otherwise
`approvedAmount > transferredAmount ? approvedAmount - transferredAmount : 0n`. -/
def reconcile (approvedAmount transferredAmount : Nat) : Nat × Bool :=
  if isUnlimitedAmount approvedAmount then
    (approvedAmount, true)
  else
    (if transferredAmount < approvedAmount then approvedAmount - transferredAmount else 0, false)

/-- Embeds the Report Builder's per-chain double loop
(`for token in approvals, for spender in approvals[token]`), including the
`transfersUsingApprovals[tokenAddress]?.[spender] || 0n` lookup and the
`remainingApproval > 0` filter. -/
def buildChainRecords (chainId : Nat) (approvals : ApprovalState)
    (usage : UsageState) : List ReconciledApproval :=
  (approvals.map (fun tp =>
    tp.2.filterMap (fun sp =>
      let transferredAmount := ((usage.lookup tp.1).bind (fun m => m.lookup sp.1)).getD 0
      let r := reconcile sp.2.amount transferredAmount
      if 0 < r.1 then
        some ⟨chainId, tp.1, sp.1, sp.2.amount, transferredAmount, r.1, r.2,
          sp.2.blockNumber, sp.2.txHash⟩
      else none))).flatten

/-- Embeds the cross-chain merge: concatenate every chain's records in chain
order (the `results.forEach` loop pushing into `approvalsList`). -/
def buildReport (results : List (Nat × ScanState)) : List ReconciledApproval :=
  (results.map (fun p => buildChainRecords p.1 p.2.approvals p.2.transfersUsingApprovals)).flatten

/-- Model of `String.prototype.localeCompare` on lowercase hex strings:
negative, zero or positive according to lexicographic order (compared on the
underlying character lists, which is the code-unit order for ASCII data). -/
def strCmp (a b : String) : Int :=
  if a.data < b.data then -1 else if b.data < a.data then 1 else 0

/-- Embeds the sort comparator of `index.js` `main` (lines 1261-1283):
chainId, then tokenAddress, then unlimited-first, then remaining descending. -/
def compareApprovalsSingle (a b : ReconciledApproval) : Int :=
  if a.chainId ≠ b.chainId then
    (a.chainId : Int) - (b.chainId : Int)
  else if a.tokenAddress ≠ b.tokenAddress then
    strCmp a.tokenAddress b.tokenAddress
  else if a.isUnlimited ∧ ¬b.isUnlimited then
    -1
  else if ¬a.isUnlimited ∧ b.isUnlimited then
    1
  else if ¬a.isUnlimited ∧ ¬b.isUnlimited then
    if a.remainingApproval < b.remainingApproval then 1
    else if b.remainingApproval < a.remainingApproval then -1
    else 0
  else 0

/-- The per-record grouping flag of the multi-chain comparator:
`a.isUnlimited || isEffectivelyUnlimited(a.remainingApproval)`. -/
def unlimitedToken (r : ReconciledApproval) : Bool :=
  r.isUnlimited || isEffectivelyUnlimited r.remainingApproval

/-- Embeds the multi-chain sort comparator (src/unnamed/part_000 lines
1491-1523): chainId, then unlimited-exposure records first, then
tokenAddress, then unlimited-first within a token, then remaining descending. -/
def compareApprovalsMulti (a b : ReconciledApproval) : Int :=
  if a.chainId ≠ b.chainId then
    (a.chainId : Int) - (b.chainId : Int)
  else if unlimitedToken a ∧ ¬unlimitedToken b then
    -1
  else if ¬unlimitedToken a ∧ unlimitedToken b then
    1
  else if a.tokenAddress ≠ b.tokenAddress then
    strCmp a.tokenAddress b.tokenAddress
  else if a.isUnlimited ∧ ¬b.isUnlimited then
    -1
  else if ¬a.isUnlimited ∧ b.isUnlimited then
    1
  else if ¬a.isUnlimited ∧ ¬b.isUnlimited then
    if a.remainingApproval < b.remainingApproval then 1
    else if b.remainingApproval < a.remainingApproval then -1
    else 0
  else 0

/-- Order-theoretic characterization of `compareApprovalsMulti a b ≤ 0`
(proved equivalent in `compareMulti_nonpos_iff`): lexicographic on chain id,
the unlimited-exposure flag (unlimited first), token address, per-record
unlimited flag (unlimited first), and remaining approval (descending). -/
def multiLE (a b : ReconciledApproval) : Prop :=
  a.chainId < b.chainId ∨
  (a.chainId = b.chainId ∧
    ((unlimitedToken a = true ∧ unlimitedToken b = false) ∨
     (unlimitedToken a = unlimitedToken b ∧
       (a.tokenAddress.data < b.tokenAddress.data ∨
        (a.tokenAddress = b.tokenAddress ∧
          ((a.isUnlimited = true ∧ b.isUnlimited = false) ∨
           (a.isUnlimited = b.isUnlimited ∧
             (a.isUnlimited = true ∨ b.remainingApproval ≤ a.remainingApproval))))))))

/-- Model of `approvalsList.sort(cmp)`: a stable sort placing `a` before `b`
whenever `cmp a b ≤ 0` (ECMAScript `Array.prototype.sort` is stable and, for a
consistent comparator, produces exactly this order). -/
def sortApprovals (cmp : ReconciledApproval → ReconciledApproval → Int)
    (l : List ReconciledApproval) : List ReconciledApproval :=
  l.mergeSort (fun a b => cmp a b ≤ 0)

/-- The final multi-chain report: merged per-chain records, sorted with the
multi-chain comparator. -/
def finalReportMulti (results : List (Nat × ScanState)) : List ReconciledApproval :=
  sortApprovals compareApprovalsMulti (buildReport results)

/-- Embeds the orchestrator's per-chain catch handler (src/index.js lines
1164-1173): a failed chain scan resolves to
`{ approvals: {}, transfersUsingApprovals: {} }` instead of rejecting. -/
def chainOutcomeState (outcome : Option ScanState) : ScanState :=
  outcome.getD ScanState.empty

/-- Aggregation of per-chain scan outcomes (`none` = the chain failed):
every chain contributes a state, failures contribute the empty state. -/
def aggregateOutcomes (outcomes : List (Nat × Option ScanState)) : List (Nat × ScanState) :=
  outcomes.map (fun p => (p.1, chainOutcomeState p.2))

/-- The final multi-chain report computed from raw per-chain outcomes
(failures included), as the orchestrator produces it. -/
def reportOfOutcomes (outcomes : List (Nat × Option ScanState)) : List ReconciledApproval :=
  finalReportMulti (aggregateOutcomes outcomes)

/-! ### Concrete scenario data

Inputs used by the witness theorems and the spec's scenario claims.  The
target address is deliberately mixed-case to exercise the lowercasing. -/

/-- Scenario target address (mixed case; canonical form `0xcccc`). -/
def targetC : String := "0xCCcc"

/-- Scenario token contract address. -/
def tokenA : String := "0xaaaa"

/-- Scenario spender address. -/
def spenderX : String := "0xb1b1"

/-- Scenario Approval log: `Approval(owner = target, spender = spenderX, 1000)` at block 10. -/
def approvalLogC2 : LogEntry :=
  ⟨APPROVAL_TOPIC, targetC, spenderX, 1000, 10, "0xt1", tokenA⟩

/-- Scenario Transfer log: `Transfer(from = target, to = 0xeeee, 400)` at block 12. -/
def transferLogC2 : LogEntry :=
  ⟨TRANSFER_TOPIC, targetC, "0xeeee", 400, 12, "0xt2", tokenA⟩

/-- The transaction carrying the scenario Transfer, sent by `spenderX`. -/
def txC2 : Transaction := ⟨"0xt2", some spenderX, some tokenA⟩

/-- Scenario batch: the Approval then the spender-initiated Transfer. -/
def batchC2 : Batch := ⟨[some approvalLogC2, some transferLogC2], [txC2]⟩

/-- Fold state after scanning the C2 scenario batch. -/
def stC2 : ScanState := scanChainFold targetC [batchC2]

/-- The single report record the C2 scenario expects. -/
def recC2 : ReconciledApproval := ⟨1, tokenA, spenderX, 1000, 400, 600, false, 10, "0xt1"⟩

/-- Approval log of amount 7 at block 1 (C1 witness). -/
def aLog1 : LogEntry := ⟨APPROVAL_TOPIC, targetC, spenderX, 7, 1, "0xh1", tokenA⟩

/-- Approval log of amount 9 at block 2 for the same pair (C1 witness). -/
def aLog2 : LogEntry := ⟨APPROVAL_TOPIC, targetC, spenderX, 9, 2, "0xh2", tokenA⟩

/-- First batch for the C7 witness: the Approval and its transaction. -/
def batchB1 : Batch := ⟨[some approvalLogC2], [⟨"0xt1", some targetC, none⟩]⟩

/-- Second batch for the C7 witness: the Transfer and its transaction. -/
def batchB2 : Batch := ⟨[some transferLogC2], [txC2]⟩

/-- Approval of 500 at block 1 (C8 scenario). -/
def zLog1 : LogEntry := ⟨APPROVAL_TOPIC, targetC, spenderX, 500, 1, "0xz1", tokenA⟩

/-- Revoking Approval of 0 at block 2 for the same pair (C8 scenario). -/
def zLog2 : LogEntry := ⟨APPROVAL_TOPIC, targetC, spenderX, 0, 2, "0xz2", tokenA⟩

/-- Fold state after the C8 scenario (500 then 0). -/
def stC8 : ScanState := scanChainFold targetC [⟨[some zLog1, some zLog2], []⟩]

/-- Fold state of the successful chain 2 in the C9 scenario (one approval). -/
def stC9 : ScanState := scanChainFold targetC [⟨[some approvalLogC2], []⟩]

/-- The single record chain 2 contributes in the C9 scenario. -/
def recC9 : ReconciledApproval := ⟨2, tokenA, spenderX, 1000, 0, 1000, false, 10, "0xt1"⟩

/-- Report record differing from `r5b` only in `spender` (C5 counterexample). -/
def r5a : ReconciledApproval := ⟨1, tokenA, "0x1111", 100, 0, 100, false, 5, "0xq1"⟩

/-- Report record differing from `r5a` only in `spender` (C5 counterexample). -/
def r5b : ReconciledApproval := ⟨1, tokenA, "0x2222", 100, 0, 100, false, 6, "0xq2"⟩

/-- Unlimited approval record for token `0xaaaa` (C6 counterexample). -/
def rU : ReconciledApproval :=
  ⟨1, tokenA, "0x1111", MAX_UINT256, 0, MAX_UINT256, true, 5, "0xq3"⟩

/-- Limited record of the same token `0xaaaa` — the token therefore has an
unlimited approval (C6 counterexample). -/
def rMid : ReconciledApproval := ⟨1, tokenA, "0x2222", 100, 0, 100, false, 6, "0xq4"⟩

/-- Limited record of token `0x0000`, which has no unlimited approval
(C6 counterexample). -/
def rOther : ReconciledApproval := ⟨1, "0x0000", "0x3333", 50, 0, 50, false, 7, "0xq5"⟩

/-- Transfer log whose transaction hash `0xt9` has no paired transaction
(C10 counterexample). -/
def tLogNoTx : LogEntry := ⟨TRANSFER_TOPIC, targetC, "0xeeee", 400, 12, "0xt9", tokenA⟩

/-! ### Helper lemmas -/

/-- Lowering a `Char` twice is the same as lowering it once. -/
theorem char_toLower_idem (c : Char) : c.toLower.toLower = c.toLower := by
  show Char.toLower (Char.toLower c) = Char.toLower c
  unfold Char.toLower
  by_cases h : 65 ≤ c.toNat ∧ c.toNat ≤ 90
  · rw [if_pos h]
    have hv : Nat.isValidChar (c.toNat + 32) := Or.inl (by omega)
    have hov : (Char.ofNat (c.toNat + 32)).toNat = c.toNat + 32 := by
      rw [Char.ofNat, dif_pos hv]; rfl
    rw [hov, if_neg (by omega)]
  · rw [if_neg h, if_neg h]

/-- Lowering a `String` twice is the same as lowering it once. -/
theorem toLowerCase_idem (s : String) : s.toLowerCase.toLowerCase = s.toLowerCase := by
  show (⟨s.data.map Char.toLower⟩ : String).toLowerCase = _
  unfold String.toLowerCase
  simp [List.map_map, Function.comp_def, char_toLower_idem]

/-- Looking up the key just written by `upsert` yields the written value. -/
theorem lookup_upsert_self {α : Type} (m : List (String × α)) (k : String) (v : α) :
    (upsert m k v).lookup k = some v := by
  induction m with
  | nil => simp [upsert]
  | cons p t ih =>
    by_cases h : p.1 = k
    · simp [upsert, h]
    · have hb : (k == p.1) = false := beq_eq_false_iff_ne.mpr (Ne.symm h)
      simp only [upsert, if_neg h, List.lookup, hb]
      exact ih

/-- `upsert` leaves every other key unchanged. -/
theorem lookup_upsert_ne {α : Type} (m : List (String × α)) (k k' : String) (v : α)
    (h : k' ≠ k) : (upsert m k v).lookup k' = m.lookup k' := by
  induction m with
  | nil =>
    have hb : (k' == k) = false := beq_eq_false_iff_ne.mpr h
    simp [upsert, List.lookup, hb]
  | cons p t ih =>
    by_cases hp : p.1 = k
    · have hb : (k' == p.1) = false := beq_eq_false_iff_ne.mpr (fun hk => h (hk.trans hp))
      simp [upsert, if_pos hp, List.lookup, hb]
    · by_cases hk' : k' = p.1
      · simp [upsert, if_neg hp, List.lookup, hk']
      · have hb : (k' == p.1) = false := beq_eq_false_iff_ne.mpr hk'
        simp only [upsert, if_neg hp, List.lookup, hb]
        exact ih

/-- Association-list lookup distributes over append. -/
theorem lookup_append {α : Type} (m₁ m₂ : List (String × α)) (t : String) :
    (m₁ ++ m₂).lookup t = (m₁.lookup t).or (m₂.lookup t) := by
  induction m₁ with
  | nil => simp [List.lookup]
  | cons p rest ih =>
    cases hb : (t == p.1) with
    | true => simp [List.lookup, hb]
    | false =>
      simp only [List.cons_append, List.lookup, hb]
      exact ih

/-- Appending a fresh empty per-token map never changes a per-spender lookup
(the empty inner map has no spender entries). -/
theorem lookup_bind_ensureToken (usage : UsageState) (token t s : String) :
    ((ensureToken usage token).lookup t).bind (fun m => m.lookup s)
      = (usage.lookup t).bind (fun m => m.lookup s) := by
  unfold ensureToken
  by_cases h : (usage.lookup token).isSome
  · rw [if_pos h]
  · rw [if_neg h, lookup_append]
    by_cases ht : t = token
    · subst ht
      rw [Option.not_isSome_iff_eq_none.mp h]
      simp [List.lookup]
    · have hb : (t == token) = false := beq_eq_false_iff_ne.mpr ht
      simp [List.lookup, hb]

/-- `ensureToken` leaves an already-present token map unchanged. -/
theorem ensureToken_of_isSome (usage : UsageState) (token : String)
    (h : (usage.lookup token).isSome) : ensureToken usage token = usage := by
  unfold ensureToken
  rw [if_pos h]

/-- Reading back the spender just accumulated by `bumpUsage`. -/
theorem lookup_bumpUsage_self (usage : UsageState) (token s : String) (a : Nat) :
    ((bumpUsage usage token s a).lookup token).bind (fun m => m.lookup s)
      = some ((((usage.lookup token).getD []).lookup s).getD 0 + a) := by
  unfold bumpUsage
  rw [lookup_upsert_self]
  exact lookup_upsert_self _ s _

/-- The comparator model of `localeCompare` is sign-antisymmetric. -/
theorem strCmp_antisymm (a b : String) : strCmp b a = -strCmp a b := by
  unfold strCmp
  rcases lt_trichotomy a.data b.data with h | h | h
  · simp [h, asymm h]
  · simp [h]
  · simp [h, asymm h]

/-- `strCmp a b ≤ 0` is exactly lexicographic `a.data ≤ b.data`. -/
theorem strCmp_nonpos_iff (a b : String) : strCmp a b ≤ 0 ↔ a.data ≤ b.data := by
  unfold strCmp
  rcases lt_trichotomy a.data b.data with h | h | h
  · simp [h, asymm h, le_of_lt h]
  · simp [h]
  · simp [h, asymm h, not_le.mpr h]

/-- Sign-antisymmetry of the shared token-level tail of both comparators. -/
theorem tokenTail_antisymm (a b : ReconciledApproval) :
    (if b.tokenAddress ≠ a.tokenAddress then
      strCmp b.tokenAddress a.tokenAddress
    else if b.isUnlimited ∧ ¬a.isUnlimited then
      -1
    else if ¬b.isUnlimited ∧ a.isUnlimited then
      1
    else if ¬b.isUnlimited ∧ ¬a.isUnlimited then
      if b.remainingApproval < a.remainingApproval then 1
      else if a.remainingApproval < b.remainingApproval then -1
      else 0
    else 0)
    = -(if a.tokenAddress ≠ b.tokenAddress then
      strCmp a.tokenAddress b.tokenAddress
    else if a.isUnlimited ∧ ¬b.isUnlimited then
      -1
    else if ¬a.isUnlimited ∧ b.isUnlimited then
      1
    else if ¬a.isUnlimited ∧ ¬b.isUnlimited then
      if a.remainingApproval < b.remainingApproval then 1
      else if b.remainingApproval < a.remainingApproval then -1
      else 0
    else 0) := by
  by_cases ht : a.tokenAddress = b.tokenAddress
  · rw [ht]
    rw [if_neg (show ¬(b.tokenAddress ≠ b.tokenAddress) from fun hcon => hcon rfl)]
    rw [if_neg (show ¬(b.tokenAddress ≠ b.tokenAddress) from fun hcon => hcon rfl)]
    cases ha : a.isUnlimited <;> cases hb : b.isUnlimited <;> simp [ha, hb]
    rcases Nat.lt_trichotomy a.remainingApproval b.remainingApproval with h | h | h
    · simp [h, Nat.lt_asymm h]
    · simp [h]
    · simp [h, Nat.lt_asymm h]
  · rw [if_pos (Ne.symm ht), if_pos ht]
    exact strCmp_antisymm _ _

/-- The single-chain comparator is sign-antisymmetric. -/
theorem compareSingle_antisymm (a b : ReconciledApproval) :
    compareApprovalsSingle b a = -compareApprovalsSingle a b := by
  unfold compareApprovalsSingle
  by_cases hc : a.chainId = b.chainId
  · rw [hc]
    rw [if_neg (show ¬(b.chainId ≠ b.chainId) from fun hcon => hcon rfl)]
    rw [if_neg (show ¬(b.chainId ≠ b.chainId) from fun hcon => hcon rfl)]
    exact tokenTail_antisymm a b
  · rw [if_pos (Ne.symm hc), if_pos hc]
    omega

/-- The multi-chain comparator is sign-antisymmetric. -/
theorem compareMulti_antisymm (a b : ReconciledApproval) :
    compareApprovalsMulti b a = -compareApprovalsMulti a b := by
  unfold compareApprovalsMulti
  by_cases hc : a.chainId = b.chainId
  · rw [hc]
    rw [if_neg (show ¬(b.chainId ≠ b.chainId) from fun hcon => hcon rfl)]
    rw [if_neg (show ¬(b.chainId ≠ b.chainId) from fun hcon => hcon rfl)]
    cases hua : unlimitedToken a <;> cases hub : unlimitedToken b <;>
      simp only [hua, hub, Bool.false_eq_true, Bool.true_eq_false, not_false_eq_true,
        not_true_eq_false, true_and, and_true, false_and, and_false, if_true, if_false,
        ite_true, ite_false, neg_neg]
    · exact tokenTail_antisymm a b
    · exact tokenTail_antisymm a b
  · rw [if_pos (Ne.symm hc), if_pos hc]
    omega

/-- Records agreeing on every compared field are compared equal by the
single-chain comparator, whatever their `spender` (and other) fields. -/
theorem compareSingle_eq_zero_of_agree (a b : ReconciledApproval)
    (hc : a.chainId = b.chainId) (ht : a.tokenAddress = b.tokenAddress)
    (hu : a.isUnlimited = b.isUnlimited) (hr : a.remainingApproval = b.remainingApproval) :
    compareApprovalsSingle a b = 0 := by
  unfold compareApprovalsSingle
  rw [hc, ht]
  rw [if_neg (show ¬(b.chainId ≠ b.chainId) from fun hcon => hcon rfl)]
  rw [if_neg (show ¬(b.tokenAddress ≠ b.tokenAddress) from fun hcon => hcon rfl)]
  cases hb : b.isUnlimited <;> simp [hu, hb, hr]

/-- Records agreeing on every compared field are compared equal by the
multi-chain comparator, whatever their `spender` (and other) fields. -/
theorem compareMulti_eq_zero_of_agree (a b : ReconciledApproval)
    (hc : a.chainId = b.chainId) (ht : a.tokenAddress = b.tokenAddress)
    (hu : a.isUnlimited = b.isUnlimited) (hr : a.remainingApproval = b.remainingApproval) :
    compareApprovalsMulti a b = 0 := by
  have hflag : unlimitedToken a = unlimitedToken b := by
    unfold unlimitedToken
    rw [hu, hr]
  unfold compareApprovalsMulti
  rw [hc, hflag, ht]
  rw [if_neg (show ¬(b.chainId ≠ b.chainId) from fun hcon => hcon rfl)]
  rw [if_neg (show ¬((unlimitedToken b : Prop) ∧ ¬(unlimitedToken b : Prop)) from
    fun hcon => hcon.2 hcon.1)]
  rw [if_neg (show ¬(¬(unlimitedToken b : Prop) ∧ (unlimitedToken b : Prop)) from
    fun hcon => hcon.1 hcon.2)]
  rw [if_neg (show ¬(b.tokenAddress ≠ b.tokenAddress) from fun hcon => hcon rfl)]
  cases hb : b.isUnlimited <;> simp [hu, hb, hr]

/-- Token-level tail of the comparator, related to the lexicographic order. -/
theorem tokenTail_nonpos_iff (a b : ReconciledApproval) :
    (if a.tokenAddress ≠ b.tokenAddress then
      strCmp a.tokenAddress b.tokenAddress
    else if a.isUnlimited ∧ ¬b.isUnlimited then
      -1
    else if ¬a.isUnlimited ∧ b.isUnlimited then
      1
    else if ¬a.isUnlimited ∧ ¬b.isUnlimited then
      if a.remainingApproval < b.remainingApproval then 1
      else if b.remainingApproval < a.remainingApproval then -1
      else 0
    else 0) ≤ 0
    ↔ (a.tokenAddress.data < b.tokenAddress.data ∨
       (a.tokenAddress = b.tokenAddress ∧
         ((a.isUnlimited = true ∧ b.isUnlimited = false) ∨
          (a.isUnlimited = b.isUnlimited ∧
            (a.isUnlimited = true ∨ b.remainingApproval ≤ a.remainingApproval))))) := by
  by_cases ht : a.tokenAddress = b.tokenAddress
  · rw [ht]
    rw [if_neg (show ¬(b.tokenAddress ≠ b.tokenAddress) from fun hcon => hcon rfl)]
    simp only [lt_self_iff_false, false_or, eq_self_iff_true, true_and]
    cases hia : a.isUnlimited <;> cases hib : b.isUnlimited <;>
      simp only [hia, hib, Bool.false_eq_true, Bool.true_eq_false, eq_self_iff_true,
        not_false_eq_true, not_true_eq_false, true_and, and_true, false_and, and_false,
        if_true, if_false, ite_true, ite_false, false_or, or_false, true_or, or_true]
    · rcases Nat.lt_trichotomy a.remainingApproval b.remainingApproval with h | h | h
      · simp only [h, ite_true, if_pos h]
        constructor
        · intro hcon
          omega
        · intro hcon
          omega
      · simp [h]
      · rw [if_neg (Nat.lt_asymm h), if_pos h]
        simp [Nat.le_of_lt h]
    · decide
    · decide
    · simp
  · rw [if_pos ht, strCmp_nonpos_iff]
    constructor
    · intro h
      left
      rcases lt_or_eq_of_le h with h2 | h2
      · exact h2
      · exact absurd (String.ext h2) ht
    · intro h
      rcases h with h | ⟨h, _⟩
      · exact le_of_lt h
      · exact absurd h ht

/-- The multi-chain comparator orders like `multiLE`. -/
theorem compareMulti_nonpos_iff (a b : ReconciledApproval) :
    compareApprovalsMulti a b ≤ 0 ↔ multiLE a b := by
  unfold compareApprovalsMulti multiLE
  by_cases hc : a.chainId = b.chainId
  · rw [hc]
    rw [if_neg (show ¬(b.chainId ≠ b.chainId) from fun hcon => hcon rfl)]
    simp only [lt_self_iff_false, false_or, eq_self_iff_true, true_and]
    cases hua : unlimitedToken a <;> cases hub : unlimitedToken b <;>
      simp only [hua, hub, Bool.false_eq_true, Bool.true_eq_false, eq_self_iff_true,
        not_false_eq_true, not_true_eq_false, true_and, and_true, false_and, and_false,
        if_true, if_false, ite_true, ite_false, false_or, or_false, true_or, or_true]
    · exact tokenTail_nonpos_iff a b
    · decide
    · decide
    · exact tokenTail_nonpos_iff a b
  · rw [if_pos hc]
    constructor
    · intro h
      left
      omega
    · intro h
      rcases h with h | ⟨h, _⟩
      · omega
      · exact absurd h hc

/-- `multiLE` is transitive. -/
theorem multiLE_trans (a b c : ReconciledApproval)
    (hab : multiLE a b) (hbc : multiLE b c) : multiLE a c := by
  unfold multiLE at hab hbc ⊢
  rcases hab with h1 | ⟨e1, hab⟩
  · rcases hbc with h2 | ⟨e2, _⟩
    · exact Or.inl (h1.trans h2)
    · exact Or.inl (by rw [← e2]; exact h1)
  · rcases hbc with h2 | ⟨e2, hbc⟩
    · exact Or.inl (by rw [e1]; exact h2)
    · refine Or.inr ⟨e1.trans e2, ?_⟩
      rcases hab with ⟨hu1a, hu1b⟩ | ⟨f1, hab⟩
      · rcases hbc with ⟨hu2a, hu2b⟩ | ⟨f2, _⟩
        · rw [hu1b] at hu2a
          exact absurd hu2a Bool.false_ne_true
        · exact Or.inl ⟨hu1a, f2.symm.trans hu1b⟩
      · rcases hbc with ⟨hu2a, hu2b⟩ | ⟨f2, hbc⟩
        · exact Or.inl ⟨f1.trans hu2a, hu2b⟩
        · refine Or.inr ⟨f1.trans f2, ?_⟩
          rcases hab with t1 | ⟨te1, hab⟩
          · rcases hbc with t2 | ⟨te2, _⟩
            · exact Or.inl (t1.trans t2)
            · exact Or.inl (by rw [← te2]; exact t1)
          · rcases hbc with t2 | ⟨te2, hbc⟩
            · exact Or.inl (by rw [te1]; exact t2)
            · refine Or.inr ⟨te1.trans te2, ?_⟩
              rcases hab with ⟨u1a, u1b⟩ | ⟨g1, hab⟩
              · rcases hbc with ⟨u2a, u2b⟩ | ⟨g2, _⟩
                · rw [u1b] at u2a
                  exact absurd u2a Bool.false_ne_true
                · exact Or.inl ⟨u1a, g2.symm.trans u1b⟩
              · rcases hbc with ⟨u2a, u2b⟩ | ⟨g2, hbc⟩
                · exact Or.inl ⟨g1.trans u2a, u2b⟩
                · refine Or.inr ⟨g1.trans g2, ?_⟩
                  rcases hab with hT | hr1
                  · exact Or.inl hT
                  · rcases hbc with hT2 | hr2
                    · exact Or.inl (g1.trans hT2)
                    · exact Or.inr (le_trans hr2 hr1)

/-- `multiLE` is total. -/
theorem multiLE_total (a b : ReconciledApproval) : multiLE a b ∨ multiLE b a := by
  rcases le_or_lt (compareApprovalsMulti a b) 0 with h | h
  · exact Or.inl ((compareMulti_nonpos_iff a b).mp h)
  · refine Or.inr ((compareMulti_nonpos_iff b a).mp ?_)
    rw [compareMulti_antisymm]
    omega

/-- Membership in a sorted report is membership in the unsorted records. -/
theorem mem_sortApprovals (cmp : ReconciledApproval → ReconciledApproval → Int)
    (l : List ReconciledApproval) (r : ReconciledApproval) :
    r ∈ sortApprovals cmp l ↔ r ∈ l := by
  unfold sortApprovals
  exact List.mem_mergeSort

/-- A list already in comparator order is left unchanged by the sort
(`Array.prototype.sort` is stable). -/
theorem sortApprovals_of_sorted (cmp : ReconciledApproval → ReconciledApproval → Int)
    (l : List ReconciledApproval) (h : l.Pairwise (fun x y => cmp x y ≤ 0)) :
    sortApprovals cmp l = l := by
  unfold sortApprovals
  exact List.mergeSort_of_sorted (h.imp fun hxy => decide_eq_true hxy)

/-- The multi-chain sorted report is pairwise ordered by the comparator. -/
theorem sortApprovals_multi_pairwise (l : List ReconciledApproval) :
    (sortApprovals compareApprovalsMulti l).Pairwise
      (fun x y => compareApprovalsMulti x y ≤ 0) := by
  unfold sortApprovals
  refine List.Pairwise.imp (fun h => of_decide_eq_true h) (List.sorted_mergeSort ?_ ?_ l)
  · intro x y z hxy hyz
    have hxy2 := of_decide_eq_true hxy
    have hyz2 := of_decide_eq_true hyz
    exact decide_eq_true ((compareMulti_nonpos_iff x z).mpr
      (multiLE_trans x y z ((compareMulti_nonpos_iff x y).mp hxy2)
        ((compareMulti_nonpos_iff y z).mp hyz2)))
  · intro x y
    rcases multiLE_total x y with h | h
    · have : compareApprovalsMulti x y ≤ 0 := (compareMulti_nonpos_iff x y).mpr h
      simp [decide_eq_true this]
    · have : compareApprovalsMulti y x ≤ 0 := (compareMulti_nonpos_iff y x).mpr h
      simp [decide_eq_true this]

/-- `Option.getD []` then lookup is lookup through `bind`. -/
theorem getD_lookup_eq_bind {α : Type} (x : Option (List (String × α))) (s : String) :
    (x.getD []).lookup s = x.bind (fun m => m.lookup s) := by
  cases x <;> rfl

/-- An Approval log whose owner is the target writes exactly its
`{amount, blockNumber, txHash}` entry at `(token, spender)`. -/
theorem lookupApproval_processLog_self (target : String) (txs : List Transaction)
    (st : ScanState) (log : LogEntry)
    (htopic : log.topic0 = APPROVAL_TOPIC)
    (howner : log.addr1.toLowerCase = target.toLowerCase) :
    lookupApproval (processLog target txs st log)
      log.address.toLowerCase log.addr2.toLowerCase
      = some ⟨log.amount, log.blockNumber, log.transactionHash⟩ := by
  simp only [processLog]
  rw [htopic]
  rw [if_pos (show (APPROVAL_TOPIC : String) = APPROVAL_TOPIC from rfl)]
  rw [howner]
  rw [if_pos (show target.toLowerCase = target.toLowerCase from rfl)]
  simp only [lookupApproval]
  rw [lookup_upsert_self]
  exact lookup_upsert_self _ _ _

/-- An Approval log leaves every other `(token, spender)` key unchanged. -/
theorem lookupApproval_processLog_other (target : String) (txs : List Transaction)
    (st : ScanState) (log : LogEntry) (t s : String)
    (htopic : log.topic0 = APPROVAL_TOPIC)
    (hk : ¬(t = log.address.toLowerCase ∧ s = log.addr2.toLowerCase)) :
    lookupApproval (processLog target txs st log) t s = lookupApproval st t s := by
  simp only [processLog]
  rw [htopic]
  rw [if_pos (show (APPROVAL_TOPIC : String) = APPROVAL_TOPIC from rfl)]
  by_cases howner : log.addr1.toLowerCase = target.toLowerCase
  · rw [if_pos howner]
    simp only [lookupApproval]
    by_cases htk : t = log.address.toLowerCase
    · subst htk
      rw [lookup_upsert_self]
      have hs : s ≠ log.addr2.toLowerCase := fun hcon => hk ⟨rfl, hcon⟩
      rw [Option.some_bind]
      rw [lookup_upsert_ne _ _ _ _ hs, getD_lookup_eq_bind]
    · rw [lookup_upsert_ne _ _ _ _ htk]
  · rw [if_neg howner]

/-- A Transfer from the target in a transaction with a known sender different
from the target accumulates the amount onto `(token, txSender)` and leaves
the approvals map unchanged. -/
theorem processLog_spenderInitiated (target : String) (txs : List Transaction)
    (st : ScanState) (log : LogEntry) (s : String)
    (htopic : log.topic0 = TRANSFER_TOPIC)
    (hfrom : log.addr1.toLowerCase = target.toLowerCase)
    (hsender : txSenderOf txs log.transactionHash = some s)
    (hne : s ≠ target.toLowerCase) :
    lookupUsage (processLog target txs st log) log.address.toLowerCase s
      = some ((lookupUsage st log.address.toLowerCase s).getD 0 + log.amount)
    ∧ (processLog target txs st log).approvals = st.approvals := by
  have hne2 : s ≠ (log.addr1.toLowerCase).toLowerCase := by
    rw [hfrom, toLowerCase_idem]
    exact hne
  simp only [processLog]
  rw [htopic]
  rw [if_neg (show ¬((TRANSFER_TOPIC : String) = APPROVAL_TOPIC) from by decide)]
  rw [if_pos (show (TRANSFER_TOPIC : String) = TRANSFER_TOPIC from rfl)]
  rw [hfrom]
  rw [if_pos (show target.toLowerCase = target.toLowerCase from rfl)]
  rw [hsender]
  have hne3 : s ≠ target.toLowerCase.toLowerCase := by
    rw [toLowerCase_idem]
    exact hne
  dsimp only
  rw [if_pos hne3]
  constructor
  · simp only [lookupUsage]
    rw [lookup_bumpUsage_self, getD_lookup_eq_bind, lookup_bind_ensureToken]
  · rfl

/-- A Transfer from the target whose transaction is not in the batch's paired
transaction list only registers the (empty) token key: neither attribution
rule fires. -/
theorem processLog_unknownTx (target : String) (txs : List Transaction)
    (st : ScanState) (log : LogEntry)
    (htopic : log.topic0 = TRANSFER_TOPIC)
    (hfrom : log.addr1.toLowerCase = target.toLowerCase)
    (hnone : findTransaction txs log.transactionHash = none) :
    processLog target txs st log
      = { st with transfersUsingApprovals :=
            ensureToken st.transfersUsingApprovals log.address.toLowerCase } := by
  simp only [processLog, txSenderOf, hnone]
  rw [htopic]
  rw [if_neg (show ¬((TRANSFER_TOPIC : String) = APPROVAL_TOPIC) from by decide)]
  rw [if_pos (show (TRANSFER_TOPIC : String) = TRANSFER_TOPIC from rfl)]
  rw [hfrom]
  rw [if_pos (show target.toLowerCase = target.toLowerCase from rfl)]

/-- `find` over concatenated transaction lists, when the right part has no
match for the hash. -/
theorem findTransaction_append_right_none (t1 t2 : List Transaction) (h : String)
    (hn : findTransaction t2 h = none) :
    findTransaction (t1 ++ t2) h = findTransaction t1 h := by
  unfold findTransaction at hn ⊢
  rw [List.find?_append, hn, Option.or_none]

/-- `find` over concatenated transaction lists, when the left part has no
match for the hash. -/
theorem findTransaction_append_left_none (t1 t2 : List Transaction) (h : String)
    (hn : findTransaction t1 h = none) :
    findTransaction (t1 ++ t2) h = findTransaction t2 h := by
  unfold findTransaction at hn ⊢
  rw [List.find?_append, hn, Option.none_or]

/-- The per-log fold depends on the transaction list only through the lookup
of the log's own transaction hash. -/
theorem processLog_congr_txs (target : String) (txs1 txs2 : List Transaction)
    (st : ScanState) (log : LogEntry)
    (h : findTransaction txs1 log.transactionHash = findTransaction txs2 log.transactionHash) :
    processLog target txs1 st log = processLog target txs2 st log := by
  simp only [processLog, txSenderOf, txHasTo, h]

/-- Congruence of the batch log fold under transaction-lookup agreement. -/
theorem foldl_congr_txs (target : String) (txs1 txs2 : List Transaction)
    (logs : List (Option LogEntry))
    (h : ∀ lg : LogEntry, some lg ∈ logs →
      findTransaction txs1 lg.transactionHash = findTransaction txs2 lg.transactionHash) :
    ∀ st : ScanState,
      logs.foldl (fun s l => match l with | none => s | some lg => processLog target txs1 s lg) st
        = logs.foldl (fun s l => match l with | none => s | some lg => processLog target txs2 s lg) st := by
  induction logs with
  | nil => intro st; rfl
  | cons l rest ih =>
    intro st
    have hrest : ∀ lg : LogEntry, some lg ∈ rest →
        findTransaction txs1 lg.transactionHash = findTransaction txs2 lg.transactionHash :=
      fun lg hm => h lg (List.mem_cons_of_mem _ hm)
    cases l with
    | none => exact ih hrest st
    | some lg =>
      simp only [List.foldl_cons]
      rw [processLog_congr_txs target txs1 txs2 st lg (h lg (List.mem_cons_self _ _))]
      exact ih hrest _

/-- Folding a homogeneous run of Approval events for one `(token, spender)`
pair ends at the entry of the last event. -/
theorem fold_approvals_last (target T S : String) (txs : List Transaction) :
    ∀ (logs : List LogEntry) (st : ScanState) (hne : logs ≠ [])
      (hall : ∀ l ∈ logs, l.topic0 = APPROVAL_TOPIC
        ∧ l.addr1.toLowerCase = target.toLowerCase
        ∧ l.address.toLowerCase = T ∧ l.addr2.toLowerCase = S),
      lookupApproval (logs.foldl (processLog target txs) st) T S
        = some ⟨(logs.getLast hne).amount, (logs.getLast hne).blockNumber,
            (logs.getLast hne).transactionHash⟩ := by
  intro logs
  induction logs with
  | nil => intro st hne hall; exact absurd rfl hne
  | cons l rest ih =>
    intro st hne hall
    obtain ⟨h1, h2, h3, h4⟩ := hall l (List.mem_cons_self _ _)
    by_cases hr : rest = []
    · subst hr
      simp only [List.foldl_cons, List.foldl_nil, List.getLast_singleton]
      rw [← h3, ← h4]
      exact lookupApproval_processLog_self target txs st l h1 h2
    · have hlast : (l :: rest).getLast hne = rest.getLast hr := List.getLast_cons hr
      rw [hlast]
      simp only [List.foldl_cons]
      exact ih (processLog target txs st l) hr
        (fun x hx => hall x (List.mem_cons_of_mem _ hx))

/-- In a block-sorted list every element's block number is at most the
last element's. -/
theorem pairwise_le_getLast :
    ∀ (logs : List LogEntry) (hne : logs ≠ [])
      (hsorted : logs.Pairwise (fun x y => x.blockNumber ≤ y.blockNumber)),
      ∀ l ∈ logs, l.blockNumber ≤ (logs.getLast hne).blockNumber := by
  intro logs
  induction logs with
  | nil => intro hne; exact absurd rfl hne
  | cons x rest ih =>
    intro hne hsorted l hl
    by_cases hr : rest = []
    · subst hr
      rcases List.mem_singleton.mp hl with rfl
      simp [List.getLast_singleton]
    · rw [List.getLast_cons hr]
      rcases List.mem_cons.mp hl with rfl | hmem
      · exact (List.pairwise_cons.mp hsorted).1 _ (List.getLast_mem hr)
      · exact ih hr ((List.pairwise_cons.mp hsorted).2) l hmem

/-! ### Claim theorems -/

/-- Claim C1: for every sequence of Approval events with owner equal to the
target for the same `(token, spender)` pair, folded in non-decreasing block
order, the final `ApprovalState` entry for that pair holds exactly the amount,
block number and transaction hash of the last such event, which also has the
highest block number; each Approval unconditionally overwrites the previous
entry. -/
theorem claim_C1 (target T S : String) (txs : List Transaction) (st : ScanState)
    (logs : List LogEntry) (hne : logs ≠ [])
    (hall : ∀ l ∈ logs, l.topic0 = APPROVAL_TOPIC
      ∧ l.addr1.toLowerCase = target.toLowerCase
      ∧ l.address.toLowerCase = T ∧ l.addr2.toLowerCase = S)
    (hsorted : logs.Pairwise (fun x y => x.blockNumber ≤ y.blockNumber)) :
    lookupApproval (logs.foldl (processLog target txs) st) T S
      = some ⟨(logs.getLast hne).amount, (logs.getLast hne).blockNumber,
          (logs.getLast hne).transactionHash⟩
    ∧ ∀ l ∈ logs, l.blockNumber ≤ (logs.getLast hne).blockNumber :=
  ⟨fold_approvals_last target T S txs logs st hne hall,
   pairwise_le_getLast logs hne hsorted⟩

/-- Witness for C1: two Approvals of 7 then 9 for the same pair end at the
entry of the second one. -/
theorem claim_C1_witness :
    lookupApproval ([aLog1, aLog2].foldl (processLog targetC []) ScanState.empty)
      tokenA spenderX = some ⟨9, 2, "0xh2"⟩ := by
  have h := claim_C1 targetC tokenA spenderX [] ScanState.empty [aLog1, aLog2]
    (by decide) (by decide) (by decide)
  rw [h.1]
  decide

/-- Claim C2: a Transfer from the target whose transaction sender is known
and differs from the target accumulates the amount into
`UsageState[token][txSender]`; and the spec scenario (Approval of 1000 at
block 10, then a Transfer of 400 sent by the spender) yields exactly one
record `{approvedAmount 1000, transferredAmount 400, remainingApproval 600,
isUnlimited false}`. -/
theorem claim_C2 :
    (∀ (target : String) (txs : List Transaction) (st : ScanState) (log : LogEntry) (s : String),
      log.topic0 = TRANSFER_TOPIC →
      log.addr1.toLowerCase = target.toLowerCase →
      txSenderOf txs log.transactionHash = some s →
      s ≠ target.toLowerCase →
      lookupUsage (processLog target txs st log) log.address.toLowerCase s
        = some ((lookupUsage st log.address.toLowerCase s).getD 0 + log.amount))
    ∧ finalReportMulti [(1, stC2)] = [recC2] := by
  constructor
  · intro target txs st log s h1 h2 h3 h4
    exact (processLog_spenderInitiated target txs st log s h1 h2 h3 h4).1
  · have hb : buildReport [(1, stC2)] = [recC2] := by decide
    unfold finalReportMulti
    rw [hb]
    exact sortApprovals_of_sorted _ _ (by simp)

/-- Witness for C2: the scenario Transfer applied at the concrete inputs. -/
theorem claim_C2_witness :
    lookupUsage (processLog targetC [txC2] ScanState.empty transferLogC2)
      transferLogC2.address.toLowerCase spenderX
      = some ((lookupUsage ScanState.empty transferLogC2.address.toLowerCase spenderX).getD 0
          + transferLogC2.amount) :=
  claim_C2.1 targetC [txC2] ScanState.empty transferLogC2 spenderX (by decide) (by decide)
    (by decide) (by decide)

/-- Claim C3: the Report Builder's remaining-approval computation: in the
unlimited case `remainingApproval = approvedAmount` with `isUnlimited = true`;
otherwise `remainingApproval = max(approvedAmount - transferredAmount, 0)`,
so it equals the exact difference when `transferredAmount ≤ approvedAmount`
and is never negative. -/
theorem claim_C3 (a t : Nat) :
    (isUnlimitedAmount a = true → reconcile a t = (a, true))
    ∧ (isUnlimitedAmount a = false →
        ((reconcile a t).1 : Int) = max ((a : Int) - (t : Int)) 0 ∧ (reconcile a t).2 = false)
    ∧ (isUnlimitedAmount a = false → t ≤ a → (reconcile a t).1 = a - t)
    ∧ (0 : Int) ≤ ((reconcile a t).1 : Int) := by
  refine ⟨?_, ?_, ?_, ?_⟩
  · intro h
    simp [reconcile, h]
  · intro h
    simp only [reconcile, h, Bool.false_eq_true, if_false, ite_false]
    refine ⟨?_, trivial⟩
    by_cases h2 : t < a
    · rw [if_pos h2, max_eq_left (by omega : (0 : Int) ≤ (a : Int) - (t : Int))]
      omega
    · rw [if_neg h2, max_eq_right (by omega : (a : Int) - (t : Int) ≤ (0 : Int))]
      omega
  · intro h h2
    simp only [reconcile, h, Bool.false_eq_true, if_false, ite_false]
    by_cases h3 : t < a
    · rw [if_pos h3]
    · rw [if_neg h3]
      omega
  · exact Int.natCast_nonneg _

/-- Witness for C3: the non-unlimited branch at `(1000, 400)`. -/
theorem claim_C3_witness :
    ((reconcile 1000 400).1 : Int) = max ((1000 : Int) - (400 : Int)) 0
    ∧ (reconcile 1000 400).2 = false :=
  (claim_C3 1000 400).2.1 (by decide)

/-- Claim C4: over exact integers with truncating division, the unlimited
classifier is true exactly for `2^256-1` or any amount above
`MAX_UINT256 - MAX_UINT256/1000`; in particular it accepts `2^256-1` and the
threshold plus one, and rejects `0`. -/
theorem claim_C4 :
    (∀ a : Nat, isUnlimitedAmount a = true
      ↔ (a = MAX_UINT256 ∨ MAX_UINT256 - MAX_UINT256 / 1000 < a))
    ∧ isUnlimitedAmount MAX_UINT256 = true
    ∧ isUnlimitedAmount 0 = false
    ∧ isUnlimitedAmount (MAX_UINT256 - MAX_UINT256 / 1000 + 1) = true
    ∧ ∀ a : Nat, isEffectivelyUnlimited a = true
        ↔ MAX_UINT256 - MAX_UINT256 / 1000 < a := by
  have hhex : MAX_UINT256_HEX = MAX_UINT256 := by decide
  refine ⟨?_, by decide, by decide, by decide, ?_⟩
  · intro a
    unfold isUnlimitedAmount isEffectivelyUnlimited
    rw [hhex]
    simp only [Bool.or_eq_true, beq_iff_eq, decide_eq_true_eq]
    omega
  · intro a
    unfold isEffectivelyUnlimited
    rw [hhex]
    simp only [decide_eq_true_eq]

/-- Witness for C4: the characterization applied at `2^256 - 1`. -/
theorem claim_C4_witness : isUnlimitedAmount MAX_UINT256 = true :=
  (claim_C4.1 MAX_UINT256).mpr (Or.inl rfl)

/-- Counterexample to C5: two distinct records that differ only in `spender`
(same chain, token, unlimited status and remaining approval) compare equal
(result `0`) under both report comparators — there is no
`(chainId, tokenAddress, spender)` tiebreak, so the comparator is not a
strict total order. -/
theorem claim_C5_counterexample :
    r5a ≠ r5b
    ∧ compareApprovalsSingle r5a r5b = 0
    ∧ compareApprovalsMulti r5a r5b = 0
    ∧ r5a.chainId = r5b.chainId ∧ r5a.tokenAddress = r5b.tokenAddress
    ∧ r5a.spender ≠ r5b.spender := by
  decide

/-- Amended C5: both comparators are sign-antisymmetric, and any two records
agreeing on `chainId`, `tokenAddress`, `isUnlimited` and `remainingApproval`
compare equal (`0`) regardless of their `spender` — the comparison is a total
preorder, not a strict total order. -/
theorem claim_C5_amended :
    (∀ a b : ReconciledApproval, compareApprovalsSingle b a = -compareApprovalsSingle a b)
    ∧ (∀ a b : ReconciledApproval, compareApprovalsMulti b a = -compareApprovalsMulti a b)
    ∧ (∀ a b : ReconciledApproval, a.chainId = b.chainId → a.tokenAddress = b.tokenAddress →
        a.isUnlimited = b.isUnlimited → a.remainingApproval = b.remainingApproval →
        compareApprovalsSingle a b = 0 ∧ compareApprovalsMulti a b = 0) :=
  ⟨compareSingle_antisymm, compareMulti_antisymm,
   fun a b hc ht hu hr => ⟨compareSingle_eq_zero_of_agree a b hc ht hu hr,
     compareMulti_eq_zero_of_agree a b hc ht hu hr⟩⟩

/-- Witness for the amended C5, applied at the two concrete records. -/
theorem claim_C5_amended_witness :
    compareApprovalsSingle r5a r5b = 0 ∧ compareApprovalsMulti r5a r5b = 0 :=
  claim_C5_amended.2.2 r5a r5b (by decide) (by decide) (by decide) (by decide)

/-- Counterexample to C6: `rU` is an unlimited approval of token `0xaaaa`,
`rMid` a limited record of the same token, and `rOther` a limited record of
token `0x0000` (no unlimited approval); in the sorted multi-chain report
`rOther` is ordered before `rMid` although `rMid`'s token has an unlimited
approval and `rOther`'s has none — the unlimited-first grouping is per
record, not per token. -/
theorem claim_C6_counterexample :
    sortApprovals compareApprovalsMulti [rU, rOther, rMid] = [rU, rOther, rMid]
    ∧ rU.tokenAddress = rMid.tokenAddress ∧ rU.isUnlimited = true
    ∧ rMid.isUnlimited = false ∧ isEffectivelyUnlimited rMid.remainingApproval = false
    ∧ rOther.isUnlimited = false ∧ isEffectivelyUnlimited rOther.remainingApproval = false
    ∧ rOther.tokenAddress ≠ rU.tokenAddress
    ∧ rU.chainId = 1 ∧ rMid.chainId = 1 ∧ rOther.chainId = 1 := by
  refine ⟨sortApprovals_of_sorted _ _ (by decide), ?_⟩
  decide

/-- Amended C6: within a chain a record that is itself unlimited or whose
remaining approval is effectively unlimited is ordered before every record
that is neither (taking precedence over the token-address order); the
grouping flag is computed per record, not per token. -/
theorem claim_C6_amended :
    (∀ a b : ReconciledApproval, a.chainId = b.chainId →
      unlimitedToken a = true → unlimitedToken b = false → compareApprovalsMulti a b = -1)
    ∧ ∀ l : List ReconciledApproval,
        (sortApprovals compareApprovalsMulti l).Pairwise
          (fun x y => x.chainId = y.chainId →
            unlimitedToken x = false → unlimitedToken y = false) := by
  constructor
  · intro a b hc hua hub
    unfold compareApprovalsMulti
    rw [hc]
    rw [if_neg (show ¬(b.chainId ≠ b.chainId) from fun hcon => hcon rfl)]
    rw [if_pos (show (unlimitedToken a : Prop) ∧ ¬(unlimitedToken b : Prop) from
      ⟨hua, by simp [hub]⟩)]
  · intro l
    refine (sortApprovals_multi_pairwise l).imp ?_
    intro x y hxy hchain hux
    cases huy : unlimitedToken y with
    | false => rfl
    | true =>
      have hcmp : compareApprovalsMulti x y = 1 := by
        unfold compareApprovalsMulti
        rw [hchain]
        rw [if_neg (show ¬(y.chainId ≠ y.chainId) from fun hcon => hcon rfl)]
        rw [if_neg (show ¬((unlimitedToken x : Prop) ∧ ¬(unlimitedToken y : Prop)) from
          fun hcon => by rw [hux] at hcon; exact Bool.false_ne_true hcon.1)]
        rw [if_pos (show ¬(unlimitedToken x : Prop) ∧ (unlimitedToken y : Prop) from
          ⟨by simp [hux], huy⟩)]
      rw [hcmp] at hxy
      exact absurd hxy (by decide)

/-- Witness for the amended C6: the comparator puts the unlimited record
first at the concrete records. -/
theorem claim_C6_amended_witness : compareApprovalsMulti rU rOther = -1 :=
  claim_C6_amended.1 rU rOther (by decide) (by decide) (by decide)

/-- Claim C7: the per-batch Reconciliation Fold is a homomorphism over batch
concatenation: for non-overlapping batches (no log of one batch has a paired
transaction in the other), folding `b1` then `b2` equals folding the
concatenated batch. -/
theorem claim_C7 (target : String) (st : ScanState) (b1 b2 : Batch)
    (h1 : ∀ lg ∈ b1.logs.filterMap id,
      findTransaction b2.transactions lg.transactionHash = none)
    (h2 : ∀ lg ∈ b2.logs.filterMap id,
      findTransaction b1.transactions lg.transactionHash = none) :
    processBatch target (processBatch target st b1) b2
      = processBatch target st ⟨b1.logs ++ b2.logs, b1.transactions ++ b2.transactions⟩ := by
  have e1 := foldl_congr_txs target (b1.transactions ++ b2.transactions) b1.transactions b1.logs
    (fun lg hm => findTransaction_append_right_none _ _ _
      (h1 lg (List.mem_filterMap.mpr ⟨some lg, hm, rfl⟩)))
  have e2 := foldl_congr_txs target (b1.transactions ++ b2.transactions) b2.transactions b2.logs
    (fun lg hm => findTransaction_append_left_none _ _ _
      (h2 lg (List.mem_filterMap.mpr ⟨some lg, hm, rfl⟩)))
  unfold processBatch
  dsimp only
  rw [List.foldl_append, e1, e2]

/-- Witness for C7 at two concrete disjoint batches. -/
theorem claim_C7_witness :
    processBatch targetC (processBatch targetC ScanState.empty batchB1) batchB2
      = processBatch targetC ScanState.empty
          ⟨batchB1.logs ++ batchB2.logs, batchB1.transactions ++ batchB2.transactions⟩ :=
  claim_C7 targetC ScanState.empty batchB1 batchB2 (by decide) (by decide)

/-- Claim C8: the final report never contains a record with
`remainingApproval = 0`; and in the spec scenario (Approval of 500 at block 1
then Approval of 0 at block 2) the final approved amount is 0 and the report
is empty. -/
theorem claim_C8 :
    (∀ (results : List (Nat × ScanState)) (r : ReconciledApproval),
      r ∈ finalReportMulti results → r.remainingApproval ≠ 0)
    ∧ lookupApproval stC8 tokenA spenderX = some ⟨0, 2, "0xz2"⟩
    ∧ finalReportMulti [(1, stC8)] = [] := by
  refine ⟨?_, by decide, ?_⟩
  · intro results r hr
    unfold finalReportMulti at hr
    rw [mem_sortApprovals] at hr
    unfold buildReport at hr
    simp only [List.mem_flatten, List.mem_map] at hr
    obtain ⟨recs, ⟨p, hp, rfl⟩, hrin⟩ := hr
    unfold buildChainRecords at hrin
    simp only [List.mem_flatten, List.mem_map] at hrin
    obtain ⟨inner, ⟨tp, htp, rfl⟩, hrin⟩ := hrin
    simp only [List.mem_filterMap] at hrin
    obtain ⟨sp, hsp, heq⟩ := hrin
    split at heq
    · rename_i hpos
      cases heq
      exact hpos.ne'
    · exact absurd heq (by simp)
  · have hb : buildReport [(1, stC8)] = [] := by decide
    unfold finalReportMulti
    rw [hb]
    exact sortApprovals_of_sorted _ _ (by simp)

/-- Witness for C8: the scenario record of C2 is in a report, hence nonzero. -/
theorem claim_C8_witness : recC2.remainingApproval ≠ 0 :=
  claim_C8.1 [(1, stC2)] recC2 (by
    have hb : buildReport [(1, stC2)] = [recC2] := by decide
    unfold finalReportMulti
    rw [hb, sortApprovals_of_sorted _ _ (by simp)]
    exact List.mem_singleton.mpr rfl)

/-- Claim C9: a failed chain contributes the empty
`{ApprovalState, UsageState}` pair and drops out of the report, and with
chain 1 failed and chain 2 holding one outstanding approval the final report
is exactly chain 2's record. -/
theorem claim_C9 :
    (∀ (cid : Nat) (rest : List (Nat × Option ScanState)),
      buildReport (aggregateOutcomes ((cid, none) :: rest))
        = buildReport (aggregateOutcomes rest))
    ∧ chainOutcomeState none = ScanState.empty
    ∧ reportOfOutcomes [(1, none), (2, some stC9)] = [recC9] := by
  refine ⟨?_, rfl, ?_⟩
  · intro cid rest
    rfl
  · have hb : buildReport (aggregateOutcomes [(1, none), (2, some stC9)]) = [recC9] := by
      decide
    unfold reportOfOutcomes finalReportMulti
    rw [hb]
    exact sortApprovals_of_sorted _ _ (by simp)

/-- Counterexample to C10: a Transfer from the target with no matching
transaction in the batch list does change the raw `UsageState` object — it
registers an empty per-token entry before the attribution rules are
evaluated. -/
theorem claim_C10_counterexample :
    findTransaction [] tLogNoTx.transactionHash = none
    ∧ tLogNoTx.topic0 = TRANSFER_TOPIC
    ∧ tLogNoTx.addr1.toLowerCase = targetC.toLowerCase
    ∧ processLog targetC [] ScanState.empty tLogNoTx ≠ ScanState.empty
    ∧ (processLog targetC [] ScanState.empty tLogNoTx).transfersUsingApprovals
        = [(tokenA, [])] := by
  decide

/-- Amended C10: for a Transfer from the target with an unknown transaction,
neither attribution rule fires: the approvals map is unchanged, every
`(token, spender)` usage lookup is unchanged, and the only effect on
`UsageState` is possibly registering an empty per-token entry. -/
theorem claim_C10_amended (target : String) (txs : List Transaction)
    (st : ScanState) (log : LogEntry)
    (htopic : log.topic0 = TRANSFER_TOPIC)
    (hfrom : log.addr1.toLowerCase = target.toLowerCase)
    (hnone : findTransaction txs log.transactionHash = none) :
    (processLog target txs st log).approvals = st.approvals
    ∧ (∀ t s : String, lookupUsage (processLog target txs st log) t s = lookupUsage st t s)
    ∧ (processLog target txs st log).transfersUsingApprovals
        = ensureToken st.transfersUsingApprovals log.address.toLowerCase := by
  have h := processLog_unknownTx target txs st log htopic hfrom hnone
  refine ⟨by rw [h], ?_, by rw [h]⟩
  intro t s
  rw [h]
  exact lookup_bind_ensureToken st.transfersUsingApprovals log.address.toLowerCase t s

/-- Witness for the amended C10 at the concrete unknown-transaction log. -/
theorem claim_C10_amended_witness :
    (processLog targetC [] ScanState.empty tLogNoTx).approvals = ScanState.empty.approvals
    ∧ (∀ t s : String, lookupUsage (processLog targetC [] ScanState.empty tLogNoTx) t s
        = lookupUsage ScanState.empty t s)
    ∧ (processLog targetC [] ScanState.empty tLogNoTx).transfersUsingApprovals
        = ensureToken ScanState.empty.transfersUsingApprovals tLogNoTx.address.toLowerCase :=
  claim_C10_amended targetC [] ScanState.empty tLogNoTx (by decide) (by decide) (by decide)

end Snubb